import Mathlib

/-!
Verification of the conversational orchestration layer of the wellness
assistant frontend: the response parser embedded in `planWithManager`, the
day-by-day proposal review state machine (`groupProposalsByDay`,
`startDayByDayApproval`, `handleDayApproval`, `handleSendMessage`), the
conversation reset handler, the check-in questionnaire flow
(`answerQuestion`, `submitAnswer`), and the check-in interval computation
`calculateNextInterval`.

The TypeScript source is shallowly embedded: React state becomes an explicit
state record, every `fetch` becomes an entry in an emitted call trace whose
response is supplied by an oracle argument, and JavaScript string primitives
(trim, toLowerCase, the literal regexes) are modelled character by character.
`JSON.parse` is a platform builtin, so it is abstracted as an oracle
`String → Option (List Proposal)` (`none` models a parse exception, and a
parsed object whose `proposals` field is missing is modelled by `some []`,
matching `payload.proposals || []`).
-/

namespace Unfrazzle

/-! ## Models of the JavaScript string primitives used by the source -/

/-- The whitespace characters relevant to `String.prototype.trim` and the
regex class `\s` (ASCII subset; the embedded strings are ASCII). -/
def isJsWhitespace (c : Char) : Bool :=
  c == ' ' || c == '\t' || c == '\n' || c == '\r'

/-- `String.prototype.trim`, on the character list. -/
def trimChars (l : List Char) : List Char :=
  ((l.dropWhile isJsWhitespace).reverse.dropWhile isJsWhitespace).reverse

/-- `String.prototype.trim`. -/
def jsTrim (s : String) : String :=
  String.mk (trimChars s.data)

/-- `String.prototype.toLowerCase` (ASCII; the classification whitelists are
ASCII words). -/
def jsToLower (s : String) : String :=
  String.mk (s.data.map Char.toLower)

/-- `pat` is a prefix of `l` (character-wise). -/
def isPrefixList : List Char → List Char → Bool
  | [], _ => true
  | _ :: _, [] => false
  | a :: pa, b :: pb => a == b && isPrefixList pa pb

/-- Split a character list at the first occurrence of `pat`: returns the text
before the first occurrence and the text after it.  `none` when `pat` does not
occur.  This models the anchored lazy regex `/^(.*?)(?=pat)/s` (the captured
group is the `before` component) as well as plain first-occurrence search. -/
def splitFirst (pat : List Char) : List Char → Option (List Char × List Char)
  | [] => if isPrefixList pat [] then some ([], []) else none
  | c :: rest =>
    if isPrefixList pat (c :: rest) then some ([], (c :: rest).drop pat.length)
    else
      match splitFirst pat rest with
      | some (pre, post) => some (c :: pre, post)
      | none => none

def openBraceChar : Char := Char.ofNat 123

def closeBraceChar : Char := Char.ofNat 125

def respTag : List Char := "<response>".data

def payloadOpenTag : List Char := "<payload>".data

def payloadCloseTag : List Char := "</payload>".data

/-- Scanner for the lazy group of `/<payload>\s*(\{.*?\})\s*<\/payload>/s`:
having consumed the opening brace, find the first closing brace that is
followed (after optional whitespace) by `</payload>`, exactly as the
backtracking regex engine does for a lazy `.*?`.  Returns the captured group
(including both braces). -/
def scanBody (acc : List Char) : List Char → Option (List Char)
  | [] => none
  | c :: rest =>
    if c == closeBraceChar && isPrefixList payloadCloseTag (rest.dropWhile isJsWhitespace) then
      some (openBraceChar :: (acc.reverse ++ [closeBraceChar]))
    else scanBody (c :: acc) rest

/-- Attempt the payload pattern immediately after an occurrence of
`<payload>`: optional whitespace, an opening brace, then the lazy body. -/
def matchPayloadAt (l : List Char) : Option (List Char) :=
  match l.dropWhile isJsWhitespace with
  | [] => none
  | c :: rest => if c == openBraceChar then scanBody [] rest else none

/-- The capture group of `raw.match(/<payload>\s*(\{.*?\})\s*<\/payload>/s)`:
scan left to right for an occurrence of `<payload>` at which the full pattern
completes; on failure the regex engine advances the match start, which the
recursive call on the tail models. -/
def extractPayload : List Char → Option (List Char)
  | [] => none
  | c :: rest =>
    if isPrefixList payloadOpenTag (c :: rest) then
      match matchPayloadAt ((c :: rest).drop payloadOpenTag.length) with
      | some body => some body
      | none => extractPayload rest
    else extractPayload rest

/-! ## Data model -/

/-- A scheduling proposal as produced by the planning backend. -/
structure Proposal where
  type : String
  summary : String
  start : String
  «end» : String
  reason : Option String
deriving DecidableEq

/-! ## Response parsing (the parsing section of `planWithManager`) -/

/-- The parsing section of `planWithManager` applied to `data.raw_text`:

* `detailedAnalysis` from `raw_text.match(/^(.*?)(?=<response>)/s)` — the
  trimmed text before the first `<response>` marker, or `""` (the variable's
  initial value) when the match fails;
* `allProposals` from `raw_text.match(/<payload>\s*(\{.*?\})\s*<\/payload>/s)`
  followed by `JSON.parse` inside `try`/`catch` and `payload.proposals || []`:
  the `jsonParse` oracle returns `none` when `JSON.parse` throws (the `catch`
  leaves the proposals empty), and the parsed proposal list otherwise. -/
def parseRawText (jsonParse : String → Option (List Proposal)) (raw : String) :
    String × List Proposal :=
  let detailedAnalysis :=
    match splitFirst respTag raw.data with
    | some (pre, _) => jsTrim (String.mk pre)
    | none => ""
  let allProposals :=
    match extractPayload raw.data with
    | some body =>
      match jsonParse (String.mk body) with
      | some ps => ps
      | none => []
    | none => []
  (detailedAnalysis, allProposals)

/-! ## Day grouping (`groupProposalsByDay`, `formatDayProposals`)

The source computes the day key as
`new Date(proposal.start).toISOString().split('T')[0]` and the human label as
`date.toLocaleDateString('en-US', …)`.  The embedding fixes a UTC environment
(the spec requires deterministic rendering for testing): for a normalized ISO
local date-time string the day key is then exactly the date prefix before
`'T'`.  The locale-dependent renderings `toLocaleDateString` /
`toLocaleTimeString` are abstracted as formatter oracles
`fmtDayLabel fmtTime : String → String` applied to the raw timestamps. -/

/-- `new Date(s).toISOString().split('T')[0]` in a UTC environment, for a
normalized ISO date-time string: the `YYYY-MM-DD` prefix. -/
def dayKey (s : String) : String :=
  String.mk (s.data.takeWhile (fun c => !(c == 'T')))

/-- Insertion into the `grouped` object: JavaScript objects preserve key
insertion order for non-index string keys, so the object is an association
list; a present key has the value appended to its list, a fresh key is
appended at the end (`if (!grouped[dayKey]) grouped[dayKey] = []` followed by
`push`). -/
def insertGrouped {α : Type} (k : String) (v : α) :
    List (String × List α) → List (String × List α)
  | [] => [(k, [v])]
  | (k0, vs) :: rest =>
    if k0 = k then (k0, vs ++ [v]) :: rest
    else (k0, vs) :: insertGrouped k v rest

/-- `groupProposalsByDay`: one pass over the proposals, each pushed (together
with its `dayLabel`) onto the group of its start date. -/
def groupProposalsByDay (fmtDayLabel : String → String) (proposals : List Proposal) :
    List (String × List (Proposal × String)) :=
  proposals.foldl (fun grouped p => insertGrouped (dayKey p.start) (p, fmtDayLabel p.start) grouped) []

/-- Character comparison by code point, the JS code-unit order on the ASCII
strings involved. -/
def charLtB (a b : Char) : Bool :=
  Nat.blt a.toNat b.toNat

/-- Lexicographic `≤` on character lists (the default JS string comparison
used by `Array.prototype.sort`). -/
def listCharLeB : List Char → List Char → Bool
  | [], _ => true
  | _ :: _, [] => false
  | a :: pa, b :: pb => if a = b then listCharLeB pa pb else charLtB a b

def insertSorted (k : String) : List String → List String
  | [] => [k]
  | x :: xs => if listCharLeB k.data x.data then k :: x :: xs else x :: insertSorted k xs

/-- `Object.keys(grouped).sort()`: ascending lexicographic order.  The keys of
`grouped` are pairwise distinct, so any correct sorting algorithm produces the
same list; insertion sort is used here. -/
def sortKeys : List String → List String
  | [] => []
  | x :: xs => insertSorted x (sortKeys xs)

/-- `grouped[k]` for a day key (the callers only index with keys that are
present; a missing key yields `[]`). -/
def lookupGroup {α : Type} : List (String × List α) → String → List α
  | [], _ => []
  | (k0, vs) :: rest, k => if k0 = k then vs else lookupGroup rest k

/-- Flattening: concatenate `f x` over the list in order (used to state the
"flatten the groups in ascending key order" property). -/
def concatMap {α β : Type} (f : α → List β) : List α → List β
  | [] => []
  | x :: xs => f x ++ concatMap f xs

/-- `Array.prototype.join(sep)`. -/
def joinWith (sep : String) : List String → String
  | [] => ""
  | [x] => x
  | x :: y :: xs => x ++ sep ++ joinWith sep (y :: xs)

/-- One activity line of `formatDayProposals`:
`` `- ${p.summary} (${startTime}-${endTime})${p.reason ? ' - ' + p.reason : ''}` ``
with the times rendered by the `toLocaleTimeString` oracle. -/
def formatProposalLine (fmtTime : String → String) (q : Proposal × String) : String :=
  let startTime := fmtTime q.1.start
  let endTime := fmtTime q.1.«end»
  let reasonSuffix :=
    match q.1.reason with
    | some r => if r = "" then "" else " - " ++ r
    | none => ""
  "- " ++ q.1.summary ++ " (" ++ startTime ++ "-" ++ endTime ++ ")" ++ reasonSuffix

/-- `formatDayProposals`: empty string for an empty day, otherwise a header
with the first proposal's day label and one line per proposal. -/
def formatDayProposals (fmtTime : String → String) (dayProposals : List (Proposal × String)) : String :=
  match dayProposals with
  | [] => ""
  | q :: _ =>
    let activities := joinWith "\n" (dayProposals.map (formatProposalLine fmtTime))
    "**" ++ q.2 ++ ":**\n" ++ activities

/-! ## Intent and consent classification (`wantsSchedulingIntent`, whitelists) -/

/-- The regex word class `\w` = `[A-Za-z0-9_]` (the regexes are not
unicode-mode). -/
def isWordChar (c : Char) : Bool :=
  c.isAlpha || c.isDigit || c == Char.ofNat 95

def schedulingKeywords : List (List Char) :=
  ["plan".data, "schedule".data, "add".data, "block".data, "book".data, "insert".data]

/-- `kw` occurs at the head of `l` with a word boundary after it. -/
def keywordAt (kw : List Char) (l : List Char) : Bool :=
  isPrefixList kw l &&
    (match l.drop kw.length with
     | [] => true
     | c :: _ => !isWordChar c)

/-- Scan for a keyword occurrence whose start is at a word boundary; the
boolean argument records whether the previous character was a word
character. -/
def scanKeywords : Bool → List Char → Bool
  | _, [] => false
  | prevIsWord, c :: rest =>
    (!prevIsWord && schedulingKeywords.any (fun kw => keywordAt kw (c :: rest)))
      || scanKeywords (isWordChar c) rest

/-- `/\b(plan|schedule|add|block|book|insert)\b/i.test(s)`. -/
def wantsSchedulingIntent (s : String) : Bool :=
  scanKeywords false (jsToLower s).data

/-- The affirmative whitelist `/^(y|yes|approve|ok|okay|sure)$/`, applied to
the lowercased trimmed message. -/
def affirmativeReplies : List String := ["y", "yes", "approve", "ok", "okay", "sure"]

/-- The negative whitelist `/^(n|no|cancel|skip)$/`. -/
def negativeReplies : List String := ["n", "no", "cancel", "skip"]

/-- JavaScript `a || d` for an optional string: `undefined`/`null` and the
empty string are falsy. -/
def jsOr (o : Option String) (d : String) : String :=
  match o with
  | some s => if s = "" then d else s
  | none => d

/-- JavaScript falsiness of an optional string value (`!x`). -/
def jsFalsy (o : Option String) : Bool :=
  match o with
  | some s => s = ""
  | none => true

/-! ## Application state and backend oracles -/

inductive Sender where
  | user
  | buddy
deriving DecidableEq

/-- A chat message (ids and wall-clock timestamps are presentation only and
not modelled). -/
abbrev ChatMsg := Sender × String

/-- One backend request issued by a handler, in issue order. -/
inductive Call where
  | decision (sessionId : Option String) (accept : Bool)
  | scheduleStart (email userName : String) (days : Nat)
  | schedulerApply (email : String)
  | support (userName message : String)
  | checkinNext
  | checkinAnswer (qid : String) (value : Int)
deriving DecidableEq

/-- The observable outcome of one `/api/manager/schedule/decision` call:
the fetch rejects (network error), resolves with `!res.ok`, or resolves ok
with `result.result?.status` and `result.finished`. -/
inductive DecisionOutcome where
  | netError
  | httpError
  | ok (status : Option String) (finished : Bool)
deriving DecidableEq

/-- `result.result?.status === "scheduled"` on a successful response. -/
def isScheduledOutcome : DecisionOutcome → Bool
  | .ok status _ => status == some "scheduled"
  | _ => false

structure NextQ where
  qid : String
  text : String
deriving DecidableEq

/-- All `MainApp` state touched by the embedded handlers. -/
structure AppState where
  messages : List ChatMsg
  activeEmail : Option String
  burnoutScore : Option ℚ
  needsInitialQuestions : Bool
  questionsAvailable : Bool
  isQuestionnaireOpen : Bool
  cooldownUntil : Option ℤ
  questionnaireInProgress : Bool
  currentQ : Option NextQ
  initialCount : Nat
  currentSessionId : Option String
  pendingProposals : List Proposal
  awaitingConsent : Bool
  currentDayProposals : List (Proposal × String)
  currentDayIndex : Nat
  groupedProposals : List (String × List (Proposal × String))
  awaitingDayConsent : Bool
deriving DecidableEq

/-- Outcome of the `/api/manager/schedule/start` fetch. -/
inductive PlanHttp where
  | netError
  | auth401
  | httpError (body : String)
  | ok (finished : Bool) (sessionId : Option String) (message : Option String)
       (rawText : Option String)

/-- Environment of one planning call: the HTTP outcome and the `JSON.parse`
oracle used on the extracted payload. -/
structure PlanEnv where
  http : PlanHttp
  jsonParse : String → Option (List Proposal)

structure PlanResult where
  ok : Bool
  message : Option String
  proposals : List Proposal
  sessionId : Option String
  detailedAnalysis : String
  text : String
deriving DecidableEq

def planFailure (msg : String) : PlanResult :=
  { ok := false, message := some msg, proposals := [], sessionId := none,
    detailedAnalysis := "", text := "" }

/-- `planWithManager(days)`.  The fetch is not wrapped in `try`, so a network
error propagates to the caller (`Except.error`).  Calls issued before the
throw stay in the trace. -/
def planWithManager (env : PlanEnv) (activeEmail : Option String) (userName : String)
    (days : Nat) : Except Unit PlanResult × List Call :=
  match activeEmail with
  | none => (.ok (planFailure "Please connect Google Calendar first."), [])
  | some email =>
    let calls := [Call.scheduleStart email userName days]
    match env.http with
    | .netError => (.error (), calls)
    | .auth401 => (.ok (planFailure "Authorization required. Connect Google Calendar first."), calls)
    | .httpError body => (.ok (planFailure ("Planner error: " ++ body)), calls)
    | .ok finished sessionId message rawText =>
      if finished && jsFalsy sessionId then
        (.ok { planFailure (jsOr message "No suggestions at this time.") with
                 text := rawText.getD "" }, calls)
      else
        let raw := rawText.getD ""
        let parsed := if raw = "" then ("", ([] : List Proposal)) else parseRawText env.jsonParse raw
        (.ok { ok := true, message := none, proposals := parsed.2, sessionId := sessionId,
               detailedAnalysis := parsed.1, text := raw }, calls)

/-! ## Day-by-day review -/

/-- `startDayByDayApproval(proposals, sessionId)`: group, reset the index,
store the session, and when at least one day exists, show the first day's
proposals and start awaiting day consent. -/
def startDayByDayApproval (fmtDayLabel fmtTime : String → String) (st : AppState)
    (proposals : List Proposal) (sessionId : Option String) : AppState :=
  let grouped := groupProposalsByDay fmtDayLabel proposals
  let dayKeys := sortKeys (grouped.map Prod.fst)
  let st1 := { st with groupedProposals := grouped, currentDayIndex := 0,
                       currentSessionId := sessionId }
  match dayKeys with
  | [] => st1
  | k0 :: _ =>
    let firstDay := lookupGroup grouped k0
    { st1 with
        currentDayProposals := firstDay,
        awaitingDayConsent := true,
        messages := st1.messages ++
          [(Sender.buddy, formatDayProposals fmtTime firstDay ++
              "\n\nApprove activities for this day? (yes/no)")] }

/-- The accept loop of `handleDayApproval`: one decision call per proposal of
the current day, in list order; the `i`-th call's response is `dec i`.  A
network error is caught (`try`/`catch`) and a non-ok response is skipped, so
the loop always continues; the counter increments exactly on responses whose
`result.status` is `"scheduled"`.  Returns the count and the call trace. -/
def acceptLoop (dec : Nat → DecisionOutcome) (sid : Option String) :
    Nat → List (Proposal × String) → Nat × List Call
  | _, [] => (0, [])
  | i, _ :: rest =>
    let o := dec i
    let r := acceptLoop dec sid (i + 1) rest
    ((if isScheduledOutcome o then 1 else 0) + r.1, Call.decision sid true :: r.2)

/-- The reject loop: one `accept: false` decision call per proposal; results
and errors are ignored. -/
def rejectCalls (sid : Option String) (l : List (Proposal × String)) : List Call :=
  l.map (fun _ => Call.decision sid false)

/-- `currentDayProposals[0]?.dayLabel` interpolated into a template literal
(`undefined` when the day is empty). -/
def dayLabelHead : List (Proposal × String) → String
  | [] => "undefined"
  | q :: _ => q.2

/-- The number of `"scheduled"` responses among the first `n` decision
outcomes starting at index `i`. -/
def countScheduledFrom (dec : Nat → DecisionOutcome) : Nat → Nat → Nat
  | _, 0 => 0
  | i, n + 1 => (if isScheduledOutcome (dec i) then 1 else 0) + countScheduledFrom dec (i + 1) n

/-- `handleDayApproval(approve)`. -/
def handleDayApproval (dec : Nat → DecisionOutcome) (fmtTime : String → String)
    (st : AppState) (approve : Bool) : AppState × List Call :=
  let dayKeys := sortKeys (st.groupedProposals.map Prod.fst)
  let stage :=
    if approve ∧ 0 < st.currentDayProposals.length then
      let r := acceptLoop dec st.currentSessionId 0 st.currentDayProposals
      ({ st with messages := st.messages ++
          [(Sender.buddy, "Added " ++ toString r.1 ++ " activities for " ++
              dayLabelHead st.currentDayProposals ++ " ✅")] }, r.2)
    else
      ({ st with messages := st.messages ++
          [(Sender.buddy, "Skipped activities for " ++ dayLabelHead st.currentDayProposals)] },
       rejectCalls st.currentSessionId st.currentDayProposals)
  let st1 := stage.1
  let nextDayIndex := st.currentDayIndex + 1
  if nextDayIndex < dayKeys.length then
    let nextDay := lookupGroup st1.groupedProposals (dayKeys.getD nextDayIndex "")
    ({ st1 with
        currentDayIndex := nextDayIndex,
        currentDayProposals := nextDay,
        messages := st1.messages ++
          [(Sender.buddy, formatDayProposals fmtTime nextDay ++
              "\n\nApprove activities for this day? (yes/no)")] }, stage.2)
  else
    ({ st1 with
        awaitingDayConsent := false,
        currentSessionId := none,
        groupedProposals := [],
        currentDayProposals := [],
        currentDayIndex := 0,
        messages := st1.messages ++
          [(Sender.buddy, "Finished reviewing all days! Let me know if you need anything else.")] },
     stage.2)

/-! ## Legacy all-at-once consent (`applyProposalsWithManager`) -/

/-- Outcome of the `/api/scheduler/apply` fallback fetch. -/
inductive DirectApplyResp where
  | netError
  | httpError (body : String)
  | ok (count : Nat)

structure ApplyResult where
  ok : Bool
  message : Option String
  count : Nat
deriving DecidableEq

/-- The session loop of `applyProposalsWithManager`: the fetch is not inside
`try`, so a network error propagates (third component `true`); a non-ok
response `break`s the loop; a `finished` response also `break`s after
processing.  Accumulates the accepted summaries and the call trace. -/
def applyLoop (dec : Nat → DecisionOutcome) (sid : Option String) :
    Nat → List Proposal → List String × List Call × Bool
  | _, [] => ([], [], false)
  | i, p :: rest =>
    match dec i with
    | .netError => ([], [Call.decision sid true], true)
    | .httpError => ([], [Call.decision sid true], false)
    | .ok status finished =>
      let here := if status == some "scheduled" then [p.summary] else []
      if finished then (here, [Call.decision sid true], false)
      else
        let r := applyLoop dec sid (i + 1) rest
        (here ++ r.1, Call.decision sid true :: r.2.1, r.2.2)

/-- `applyProposalsWithManager(sessionId, proposals)`: with a falsy session id
it falls back to `applyProposalsDirect`, otherwise it walks the session
auto-accepting every proposal. -/
def applyProposalsWithManager (dec : Nat → DecisionOutcome) (direct : DirectApplyResp)
    (activeEmail : Option String) (sessionId : Option String) (proposals : List Proposal) :
    Except Unit ApplyResult × List Call :=
  if jsFalsy sessionId then
    match activeEmail with
    | none => (.ok { ok := false, message := some "No authorized calendar email.", count := 0 }, [])
    | some email =>
      match direct with
      | .netError => (.error (), [Call.schedulerApply email])
      | .httpError body =>
        (.ok { ok := false, message := some ("Apply error: " ++ body), count := 0 },
         [Call.schedulerApply email])
      | .ok n => (.ok { ok := true, message := none, count := n }, [Call.schedulerApply email])
  else
    let r := applyLoop dec sessionId 0 proposals
    if r.2.2 then (.error (), r.2.1)
    else (.ok { ok := true, message := none, count := r.1.length }, r.2.1)

/-! ## The chat handler (`handleSendMessage`) -/

/-- Outcome of the `/api/manager/support` fetch; a rejection or a JSON failure
is caught by the handler's own `try`/`catch`. -/
inductive SupportResp where
  | netError
  | ok (text : Option String)

/-- The backend responses and rendering oracles one chat message's handler can
consume. -/
structure ChatEnv where
  dec : Nat → DecisionOutcome
  plan : PlanEnv
  directApply : DirectApplyResp
  supportResp : SupportResp
  fmtDayLabel : String → String
  fmtTime : String → String
  userName : String

/-- Result of one handler run: `done` on normal completion, `threw` when an
un-caught fetch rejection escapes (possible only in the legacy-consent and
scheduling branches).  In both cases the state reflects the React state
updates already applied and the trace the calls already issued. -/
inductive HandlerOutcome where
  | done (st : AppState) (calls : List Call)
  | threw (st : AppState) (calls : List Call)
deriving DecidableEq

def dayConsentRePrompt : String :=
  "Please reply with **yes** or **no** for this day\x27s activities."

/-- `handleSendMessage`, for one submitted input string.  Branch order is the
source's: empty guard, day-by-day consent, legacy consent, scheduling intent,
support fallback.  The `setTimeout(…, 2000)` around `startDayByDayApproval`
in the scheduling branch only delays the call; under the single-threaded
processing model it is applied directly. -/
def handleSendMessage (env : ChatEnv) (st : AppState) (inputMessage : String) : HandlerOutcome :=
  if jsTrim inputMessage = "" then .done st []
  else
    let userText := jsTrim inputMessage
    let st := { st with messages := st.messages ++ [(Sender.user, userText)] }
    if st.awaitingDayConsent then
      let s := jsToLower userText
      if affirmativeReplies.contains s then
        let r := handleDayApproval env.dec env.fmtTime st true
        .done r.1 r.2
      else if negativeReplies.contains s then
        let r := handleDayApproval env.dec env.fmtTime st false
        .done r.1 r.2
      else
        .done { st with messages := st.messages ++ [(Sender.buddy, dayConsentRePrompt)] } []
    else if st.awaitingConsent then
      let s := jsToLower userText
      if affirmativeReplies.contains s then
        match applyProposalsWithManager env.dec env.directApply st.activeEmail
            st.currentSessionId st.pendingProposals with
        | (.error _, calls) => .threw st calls
        | (.ok res, calls) =>
          let msg :=
            if res.ok then "Added " ++ toString res.count ++ " item(s) to your Google Calendar ✅"
            else jsOr res.message "Something went wrong while applying the plan."
          .done { st with messages := st.messages ++ [(Sender.buddy, msg)],
                          pendingProposals := [], currentSessionId := none,
                          awaitingConsent := false } calls
      else if negativeReplies.contains s then
        .done { st with
                  messages := st.messages ++
                    [(Sender.buddy, "No problem—nothing was added. Tell me if you want to plan again.")],
                  pendingProposals := [], currentSessionId := none,
                  awaitingConsent := false } []
      else
        .done { st with messages := st.messages ++ [(Sender.buddy, "Please reply with **yes** or **no**.")] } []
    else if wantsSchedulingIntent userText then
      match planWithManager env.plan st.activeEmail env.userName 3 with
      | (.error _, calls) => .threw st calls
      | (.ok plan, calls) =>
        if plan.ok ∧ plan.proposals ≠ [] then
          let st :=
            if plan.detailedAnalysis ≠ "" then
              { st with messages := st.messages ++ [(Sender.buddy, plan.detailedAnalysis)] }
            else st
          .done (startDayByDayApproval env.fmtDayLabel env.fmtTime st plan.proposals plan.sessionId) calls
        else if plan.ok = false then
          .done { st with messages := st.messages ++
                    [(Sender.buddy, plan.message.getD "Planner unavailable.")] } calls
        else .done st calls
    else
      let calls := [Call.support env.userName userText]
      match env.supportResp with
      | .netError =>
        .done { st with messages := st.messages ++
                  [(Sender.buddy, "I\x27m having trouble connecting right now. Please try again in a moment.")] } calls
      | .ok t =>
        .done { st with messages := st.messages ++
                  [(Sender.buddy, jsOr t "I understand. How can I help further?")] } calls

/-- The reset-conversation button's `onClick`: restores the greeting, clears
the input and the legacy consent state (`pendingProposals`,
`awaitingConsent`) — and nothing else. -/
def resetConversation (userName : String) (st : AppState) : AppState :=
  { st with
      messages := [(Sender.buddy,
        "Hi " ++ userName ++ "! I\x27m your Unfrazzle Buddy. How can I support you today?")],
      pendingProposals := [],
      awaitingConsent := false }

/-! ## Burnout check-in flow (`answerQuestion`, modal open effect, `submitAnswer`) -/

/-- Outcome of the `/api/manager/checkin/answer` fetch: `fail` covers both a
rejection and a non-ok response (`answerQuestion` throws on either); `ok`
carries `data.bs` and `data.next_interval_min` (`Number(x || 0)`: an absent
field is the value `0`). -/
inductive AnswerResp where
  | fail
  | ok (bs : Option ℚ) (nextIntervalMin : ℤ)

/-- Oracles for one questionnaire interaction.  `nextQ = none` models a failed
`/api/manager/checkin/next` fetch.  `now` is `Date.now()` in milliseconds. -/
structure CheckinEnv where
  nextQ : Option NextQ
  answer : AnswerResp
  plan : PlanEnv
  fmtDayLabel : String → String
  fmtTime : String → String
  userName : String
  now : ℤ

/-- `answerQuestion(qid, value)`: throws on a failed call; on success stores
the burnout score when numeric and, when `next_interval_min` is positive, sets
`cooldownUntil = Date.now() + mins * 60_000` and marks questions unavailable
(the accompanying `setTimeout` re-enable is a future effect outside the
state).  Returns `(state, bs, mins)` and the call trace. -/
def answerQuestion (now : ℤ) (resp : AnswerResp) (qid : String) (value : Int)
    (st : AppState) : Except Unit (AppState × Option ℚ × ℤ) × List Call :=
  let calls := [Call.checkinAnswer qid value]
  match resp with
  | .fail => (.error (), calls)
  | .ok bs mins =>
    let st1 :=
      match bs with
      | some b => { st with burnoutScore := some b }
      | none => st
    let st2 :=
      if 0 < mins then
        { st1 with cooldownUntil := some (now + mins * 60000), questionsAvailable := false }
      else st1
    (.ok (st2, bs, mins), calls)

/-- The `useEffect` that runs when the questionnaire modal opens: reset the
initial-question counter, mark the questionnaire in progress and load the
first question (a failed fetch is caught and leaves `currentQ = null`). -/
def openQuestionnaire (env : CheckinEnv) (st : AppState) : AppState × List Call :=
  let st1 := { st with isQuestionnaireOpen := true, initialCount := 0,
                       questionnaireInProgress := true }
  match env.nextQ with
  | some q => ({ st1 with currentQ := some q }, [Call.checkinNext])
  | none => ({ st1 with currentQ := none }, [Call.checkinNext])

def answerFailedMsg : String :=
  "Hmm, I couldn\x27t record that answer. Please try again."

/-- `submitAnswer(value)`.  The whole body is one `try`/`catch`: any throw
(failed answer call, failed reload of the next question, or a planning
network error) lands in the `catch`, which only appends the apology message —
state updates already applied stay applied.  After the initial assessment
(`needsInitialQuestions` false, or the 5th answer) the modal closes,
availability is switched off, and the auto-plan path may run. -/
def submitAnswer (env : CheckinEnv) (st : AppState) (value : Int) : AppState × List Call :=
  match st.currentQ with
  | none => (st, [])
  | some q =>
    match answerQuestion env.now env.answer q.qid value st with
    | (.error _, calls) =>
      ({ st with messages := st.messages ++ [(Sender.buddy, answerFailedMsg)] }, calls)
    | (.ok (stA, _bs, _mins), calls0) =>
      let count := st.initialCount + 1
      let st1 := { stA with initialCount := count }
      if count < 5 ∧ st.needsInitialQuestions then
        match env.nextQ with
        | none =>
          ({ st1 with messages := st1.messages ++ [(Sender.buddy, answerFailedMsg)] },
           calls0 ++ [Call.checkinNext])
        | some q2 => ({ st1 with currentQ := some q2 }, calls0 ++ [Call.checkinNext])
      else
        let st2 := { st1 with
                       needsInitialQuestions := false,
                       isQuestionnaireOpen := false,
                       questionsAvailable := false,
                       questionnaireInProgress := false,
                       messages := st1.messages ++
                         [(Sender.buddy, "Thanks for completing your check-in.")] }
        match st2.activeEmail with
        | none =>
          ({ st2 with messages := st2.messages ++
              [(Sender.buddy, "To suggest restorative activities, please connect your Google Calendar (middle panel).")] },
           calls0)
        | some _ =>
          match planWithManager env.plan st2.activeEmail env.userName 3 with
          | (.error _, calls1) =>
            ({ st2 with messages := st2.messages ++ [(Sender.buddy, answerFailedMsg)] },
             calls0 ++ calls1)
          | (.ok plan, calls1) =>
            if plan.ok ∧ plan.proposals ≠ [] then
              let st3 :=
                if plan.detailedAnalysis ≠ "" then
                  { st2 with messages := st2.messages ++ [(Sender.buddy, plan.detailedAnalysis)] }
                else st2
              (startDayByDayApproval env.fmtDayLabel env.fmtTime st3 plan.proposals plan.sessionId,
               calls0 ++ calls1)
            else if plan.ok = false then
              ({ st2 with messages := st2.messages ++
                  [(Sender.buddy, plan.message.getD "Planner unavailable.")] },
               calls0 ++ calls1)
            else (st2, calls0 ++ calls1)

/-! ## Check-in interval (`calculateNextInterval` of `useBurnoutTimer`)

The JavaScript computation is over IEEE doubles; it is embedded over `ℝ`
(`Math.exp` is `Real.exp`, `Math.round x` is `⌊x + 1/2⌋` = Mathlib's
`round`).  The rounded outputs proved below sit at least `0.03` away from the
nearest half-integer, far beyond double rounding error, so the real-valued
embedding and the double computation round identically at those points. -/

/-- `calculateNextInterval(score)` with `MIN_INTERVAL_MIN = 30`,
`MAX_INTERVAL_MIN = 4 * 60`, `LOGISTIC_STEEPNESS = 4.0`.  Note: the source
applies **no clamp** to `score`. -/
noncomputable def calculateNextInterval (score : ℝ) : ℤ :=
  let minIntervalMin : ℝ := 30
  let maxIntervalMin : ℝ := 4 * 60
  let logisticSteepness : ℝ := 4.0
  let ratio : ℝ := 1.0 / (1.0 + Real.exp (-logisticSteepness * (score / 100 - 0.5)))
  let minutes : ℝ := minIntervalMin + (maxIntervalMin - minIntervalMin) * (1.0 - ratio)
  round minutes

/-! ## Concrete fixtures used by witnesses and counterexamples -/

def walkP : Proposal :=
  { type := "activity", summary := "Walk", start := "2024-01-02T09:00",
    «end» := "2024-01-02T09:30", reason := none }

def meditateP : Proposal :=
  { type := "activity", summary := "Meditate", start := "2024-01-03T08:00",
    «end» := "2024-01-03T08:15", reason := none }

def stretchP : Proposal :=
  { type := "activity", summary := "Stretch", start := "2024-01-02T18:00",
    «end» := "2024-01-02T18:10", reason := none }

/-- A state in the middle of a day-by-day review (`DayReview`, first day). -/
def dayReviewState : AppState :=
  { messages := [(Sender.buddy, "hello")],
    activeEmail := some "ana@example.com",
    burnoutScore := none,
    needsInitialQuestions := false,
    questionsAvailable := true,
    isQuestionnaireOpen := false,
    cooldownUntil := none,
    questionnaireInProgress := false,
    currentQ := none,
    initialCount := 5,
    currentSessionId := some "sess-1",
    pendingProposals := [],
    awaitingConsent := false,
    currentDayProposals := [(walkP, "Tuesday, Jan 2"), (stretchP, "Tuesday, Jan 2")],
    currentDayIndex := 0,
    groupedProposals :=
      [("2024-01-02", [(walkP, "Tuesday, Jan 2"), (stretchP, "Tuesday, Jan 2")]),
       ("2024-01-03", [(meditateP, "Wednesday, Jan 3")])],
    awaitingDayConsent := true }

/-- A raw planning text whose payload JSON is malformed. -/
def rawMalformed : String :=
  "Take breaks.\n<response>accepted<payload> \x7bnot json\x7d </payload>"

def journalP : Proposal :=
  { type := "activity", summary := "Journal", start := "2024-01-02T20:00",
    «end» := "2024-01-02T20:15", reason := some "wind down" }

/-- A `DayReview` state whose current day holds three proposals. -/
def day3State : AppState :=
  { dayReviewState with
      currentDayProposals :=
        [(walkP, "Tuesday, Jan 2"), (stretchP, "Tuesday, Jan 2"), (journalP, "Tuesday, Jan 2")],
      groupedProposals :=
        [("2024-01-02",
          [(walkP, "Tuesday, Jan 2"), (stretchP, "Tuesday, Jan 2"), (journalP, "Tuesday, Jan 2")])] }

/-- Decision oracle where exactly the second call fails with a network
error. -/
def secondCallFails : Nat → DecisionOutcome :=
  fun i => if i = 1 then .netError else .ok (some "scheduled") false

/-- `true` exactly on `checkin/next` fetches. -/
def isCheckinNextCall : Call → Bool
  | .checkinNext => true
  | _ => false

/-- `true` exactly on `checkin/answer` fetches. -/
def isCheckinAnswerCall : Call → Bool
  | .checkinAnswer _ _ => true
  | _ => false

/-- A state after the initial assessment, with the calendar not connected. -/
def postInitialState : AppState :=
  { dayReviewState with
      activeEmail := none,
      awaitingDayConsent := false,
      currentDayProposals := [],
      groupedProposals := [],
      currentSessionId := none }

/-- A fully concrete check-in environment for witnesses. -/
def witnessCheckinEnv : CheckinEnv :=
  { nextQ := some { qid := "q1", text := "How rested do you feel?" },
    answer := .ok none 45,
    plan := { http := .netError, jsonParse := fun _ => none },
    fmtDayLabel := fun s => s,
    fmtTime := fun s => s,
    userName := "Ana",
    now := 0 }

/-- A fully concrete chat environment for witnesses. -/
def witnessChatEnv : ChatEnv :=
  { dec := secondCallFails,
    plan := { http := .netError, jsonParse := fun _ => none },
    directApply := .netError,
    supportResp := .netError,
    fmtDayLabel := fun s => s,
    fmtTime := fun s => s,
    userName := "Ana" }

/-!
# Theorems
-/

/-! ## C4 — parsing marker-free text -/

/-- C4 (counterexample): on the marker-free input `"hello"` the parser
returns analysis `""`, not the trimmed full input `"hello"` — the claim that
the analysis equals the trimmed input text is false. -/
theorem parseRawText_no_markers_counterexample :
    splitFirst respTag ("hello").data = none ∧
    extractPayload ("hello").data = none ∧
    jsTrim "hello" = "hello" ∧
    (parseRawText (fun _ => none) "hello").1 ≠ jsTrim "hello" := by
  decide

/-- C4 (amended): for every raw planning text with no sentinel markers (no
`<response>` occurrence and no matching `<payload>` block), the parsing
returns an empty proposals list and an **empty** analysis (the analysis
variable keeps its `""` initial value because the anchored lookahead match
fails). -/
theorem parseRawText_no_markers (jsonParse : String → Option (List Proposal)) (raw : String)
    (hresp : splitFirst respTag raw.data = none)
    (hpay : extractPayload raw.data = none) :
    parseRawText jsonParse raw = ("", []) := by
  simp only [parseRawText, hresp, hpay]

/-- C4 witness: the amended theorem applied at `"hello"`. -/
theorem parseRawText_no_markers_witness :
    splitFirst respTag ("hello").data = none ∧
    extractPayload ("hello").data = none ∧
    parseRawText (fun _ => none) "hello" = ("", []) :=
  ⟨by decide, by decide,
    parseRawText_no_markers (fun _ => none) "hello" (by decide) (by decide)⟩

/-! ## C5 — malformed structured segment degrades to no proposals -/

/-- C5: for every raw planning text containing a `<response>` marker and a
sentinel-delimited payload whose JSON fails to parse (`jsonParse … = none`,
the `JSON.parse` exception caught by the source's `try`/`catch`), the parsing
returns an empty proposals list and preserves as analysis the trimmed text
preceding the marker.  `parseRawText` is a total function, so no exception
escapes. -/
theorem parseRawText_malformed_payload (jsonParse : String → Option (List Proposal))
    (raw : String) (pre post body : List Char)
    (hresp : splitFirst respTag raw.data = some (pre, post))
    (hpay : extractPayload raw.data = some body)
    (hJson : jsonParse (String.mk body) = none) :
    parseRawText jsonParse raw = (jsTrim (String.mk pre), []) := by
  simp only [parseRawText, hresp, hpay, hJson]

/-- C5 witness: a malformed payload (`{not json}`) with analysis prose before
the `<response>` marker. -/
theorem parseRawText_malformed_payload_witness :
    parseRawText (fun _ => none) rawMalformed = ("Take breaks.", []) := by
  have h := parseRawText_malformed_payload (fun _ => none) rawMalformed
    ("Take breaks.\n").data ("accepted<payload> \x7bnot json\x7d </payload>").data
    ("\x7bnot json\x7d").data (by decide) (by decide) (by decide)
  exact h.trans (by decide)

/-! ## C8 — the reset handler does not clear the day-review session -/

/-- C8: evaluating the reset-conversation handler in a `DayReview` state
(`dayReviewState`: awaiting day consent on the first of two day groups with
session `"sess-1"`) shows it clears only the legacy consent state
(`pendingProposals`, `awaitingConsent`): the day groups, current day index,
session id and the awaiting-day-consent flag all survive the reset, so the
`ProposalSession` is **not** cleared as the claim (and spec) state. -/
theorem resetConversation_leaves_day_session :
    (resetConversation "Ana" dayReviewState).awaitingDayConsent = true ∧
    (resetConversation "Ana" dayReviewState).groupedProposals = dayReviewState.groupedProposals ∧
    (resetConversation "Ana" dayReviewState).currentDayProposals = dayReviewState.currentDayProposals ∧
    (resetConversation "Ana" dayReviewState).currentDayIndex = dayReviewState.currentDayIndex ∧
    (resetConversation "Ana" dayReviewState).currentSessionId = some "sess-1" ∧
    (resetConversation "Ana" dayReviewState).pendingProposals = [] ∧
    (resetConversation "Ana" dayReviewState).awaitingConsent = false := by
  decide

/-! ## C1 — invalid day-consent replies only re-prompt -/

/-- C1: while awaiting the per-day decision, any non-empty message whose
trimmed lowercase form matches neither whitelist produces exactly the
re-prompt: the handler returns `done` (no throw) with an **empty call trace**
(no backend call, in particular no planning call) and a state identical to
the input except for the appended user message and re-prompt — all
consent/session fields unchanged. -/
theorem handleSendMessage_invalid_day_reply (env : ChatEnv) (st : AppState) (msg : String)
    (hday : st.awaitingDayConsent = true)
    (hne : jsTrim msg ≠ "")
    (haff : affirmativeReplies.contains (jsToLower (jsTrim msg)) = false)
    (hneg : negativeReplies.contains (jsToLower (jsTrim msg)) = false) :
    handleSendMessage env st msg =
      .done { st with messages := st.messages ++
          [(Sender.user, jsTrim msg), (Sender.buddy, dayConsentRePrompt)] } [] := by
  simp only [handleSendMessage, hne, hday, haff, hneg, if_false, if_true, ite_true, ite_false,
    Bool.false_eq_true, List.append_assoc, List.cons_append, List.nil_append, if_neg,
    not_false_eq_true]

/-- C1 witness: `"please schedule more"` contains a scheduling keyword, yet
while awaiting day consent it only re-prompts, with no backend call. -/
theorem handleSendMessage_invalid_day_reply_witness :
    wantsSchedulingIntent "please schedule more" = true ∧
    handleSendMessage witnessChatEnv dayReviewState "please schedule more" =
      .done { dayReviewState with messages := dayReviewState.messages ++
          [(Sender.user, "please schedule more"), (Sender.buddy, dayConsentRePrompt)] } [] := by
  refine ⟨by decide, ?_⟩
  have h := handleSendMessage_invalid_day_reply witnessChatEnv dayReviewState
    "please schedule more" (by decide) (by decide) (by decide) (by decide)
  exact h.trans (by decide)

/-! ## C2 — accept path: one call per proposal, failures swallowed -/

/-- The accept loop issues exactly one `accept: true` decision call per
proposal, in order, and counts the `"scheduled"` responses among them. -/
theorem acceptLoop_spec (dec : Nat → DecisionOutcome) (sid : Option String) :
    ∀ (l : List (Proposal × String)) (i : Nat),
      acceptLoop dec sid i l =
        (countScheduledFrom dec i l.length, l.map (fun _ => Call.decision sid true)) := by
  intro l
  induction l with
  | nil => intro i; rfl
  | cons q rest ih =>
    intro i
    simp [acceptLoop, countScheduledFrom, ih]

/-- `countScheduledFrom dec i n` is the number of `"scheduled"` responses
among the outcomes `dec i, …, dec (i+n-1)`. -/
theorem countScheduledFrom_eq_countP (dec : Nat → DecisionOutcome) :
    ∀ (n i : Nat),
      countScheduledFrom dec i n =
        ((List.range n).map (fun j => dec (i + j))).countP isScheduledOutcome := by
  intro n
  induction n with
  | zero => intro i; rfl
  | succ n ih =>
    intro i
    rw [List.range_succ_eq_map, List.map_cons, List.countP_cons, List.map_map]
    have hmap : (List.range n).map ((fun j => dec (i + j)) ∘ Nat.succ) =
        (List.range n).map (fun j => dec ((i + 1) + j)) := by
      refine List.map_congr_left (fun j _ => ?_)
      have : i + Nat.succ j = (i + 1) + j := by omega
      simp [Function.comp, this]
    rw [hmap, ← ih (i + 1)]
    simp [countScheduledFrom]
    omega

/-- C2: on the accept path for a non-empty current day, `handleDayApproval`
issues exactly one decision call per proposal — sequentially, in list order,
each `(sessionId, accept: true)` — regardless of individual failures (caught
network errors and non-ok responses are swallowed and the loop continues),
and the emitted summary reports exactly the number of responses whose
`result.status` was `"scheduled"`. -/
theorem handleDayApproval_accept_partial_failure (dec : Nat → DecisionOutcome)
    (fmtTime : String → String) (st : AppState)
    (hne : st.currentDayProposals ≠ []) :
    (handleDayApproval dec fmtTime st true).2 =
      st.currentDayProposals.map (fun _ => Call.decision st.currentSessionId true) ∧
    ((handleDayApproval dec fmtTime st true).1.messages.drop st.messages.length).head? =
      some (Sender.buddy, "Added " ++
          toString (((List.range st.currentDayProposals.length).map dec).countP isScheduledOutcome) ++
          " activities for " ++ dayLabelHead st.currentDayProposals ++ " ✅") := by
  have hlen : 0 < st.currentDayProposals.length := List.length_pos.mpr hne
  have hcount : countScheduledFrom dec 0 st.currentDayProposals.length =
      ((List.range st.currentDayProposals.length).map dec).countP isScheduledOutcome := by
    rw [countScheduledFrom_eq_countP]
    simp only [Nat.zero_add]
  by_cases hidx : st.currentDayIndex + 1 < (sortKeys (st.groupedProposals.map Prod.fst)).length <;>
    simp only [handleDayApproval, acceptLoop_spec, hcount, hlen, hidx, and_true, true_and,
      if_true, if_false, ite_true, ite_false, and_self, List.append_assoc, List.drop_left,
      List.cons_append, List.nil_append, eq_self_iff_true, if_pos, if_neg, not_false_eq_true,
      not_true_eq_false, List.head?_cons]

/-- C2 witness: three proposals with the second decision call failing — three
calls are still issued and the summary reports 2 scheduled. -/
theorem handleDayApproval_accept_partial_failure_witness :
    (handleDayApproval secondCallFails (fun s => s) day3State true).2 =
      [Call.decision (some "sess-1") true, Call.decision (some "sess-1") true,
       Call.decision (some "sess-1") true] ∧
    ((handleDayApproval secondCallFails (fun s => s) day3State true).1.messages.drop 1).head? =
      some (Sender.buddy, "Added 2 activities for Tuesday, Jan 2 ✅") := by
  have h := handleDayApproval_accept_partial_failure secondCallFails (fun s => s) day3State
    (by decide)
  exact ⟨h.1.trans (by decide), h.2.trans (by decide)⟩

/-! ## C9 — end-to-end start of the Walk/Meditate review -/

/-- C9: starting the review on the Walk (Jan 2) and Meditate (Jan 3)
proposals produces day groups keyed `2024-01-02` then `2024-01-03` (already in
ascending order, and sorting keeps them so), sets the first day's proposals to
exactly the Walk proposal, and the emitted first prompt is the formatted day
message listing only the Walk line — for every rendering of labels and times
(`fmtDayLabel`, `fmtTime` model the locale formatters). -/
theorem startDayByDayApproval_walk_meditate (fmtDayLabel fmtTime : String → String)
    (st : AppState) :
    let st1 := startDayByDayApproval fmtDayLabel fmtTime st [walkP, meditateP] (some "sess-9")
    st1.groupedProposals.map Prod.fst = ["2024-01-02", "2024-01-03"] ∧
    sortKeys (st1.groupedProposals.map Prod.fst) = ["2024-01-02", "2024-01-03"] ∧
    st1.currentDayProposals = [(walkP, fmtDayLabel "2024-01-02T09:00")] ∧
    st1.awaitingDayConsent = true ∧
    st1.currentDayIndex = 0 ∧
    st1.currentSessionId = some "sess-9" ∧
    st1.messages = st.messages ++
      [(Sender.buddy, formatDayProposals fmtTime [(walkP, fmtDayLabel "2024-01-02T09:00")] ++
          "\n\nApprove activities for this day? (yes/no)")] ∧
    formatDayProposals fmtTime [(walkP, fmtDayLabel "2024-01-02T09:00")] =
      ("**" ++ fmtDayLabel "2024-01-02T09:00" ++ ":**\n") ++
        ("- Walk (" ++ fmtTime "2024-01-02T09:00" ++ "-" ++ fmtTime "2024-01-02T09:30" ++ ")") := by
  intro st1
  refine ⟨rfl, rfl, rfl, rfl, rfl, rfl, rfl, ?_⟩
  rw [show formatDayProposals fmtTime [(walkP, fmtDayLabel "2024-01-02T09:00")] =
      ("**" ++ fmtDayLabel "2024-01-02T09:00" ++ ":**\n") ++
        (("- Walk (" ++ fmtTime "2024-01-02T09:00" ++ "-" ++ fmtTime "2024-01-02T09:30" ++ ")") ++ "")
      from rfl, String.append_empty]

/-! ## C6 — `groupProposalsByDay` is an order-preserving partition -/

/-- Keys after insertion: unchanged when the key is present, appended
otherwise. -/
theorem insertGrouped_keys {α : Type} (k : String) (v : α) :
    ∀ m : List (String × List α),
      (insertGrouped k v m).map Prod.fst =
        if k ∈ m.map Prod.fst then m.map Prod.fst else m.map Prod.fst ++ [k] := by
  intro m
  induction m with
  | nil => simp [insertGrouped]
  | cons kv rest ih =>
    obtain ⟨k0, vs⟩ := kv
    by_cases h : k0 = k
    · subst h
      simp [insertGrouped]
    · by_cases h2 : k ∈ rest.map Prod.fst <;>
        simp [insertGrouped, h, ih, h2, List.mem_cons, Ne.symm h]

/-- Where an entry of `insertGrouped k v m` comes from, assuming the keys of
`m` are distinct: either an untouched entry with a different key, or the entry
of `k` — freshly created as `[v]`, or the old entry with `v` appended. -/
theorem insertGrouped_mem {α : Type} (k : String) (v : α) :
    ∀ m : List (String × List α), (m.map Prod.fst).Nodup →
      ∀ k1 l1, (k1, l1) ∈ insertGrouped k v m →
        (k1 ≠ k ∧ (k1, l1) ∈ m) ∨
        (k1 = k ∧ ((k ∉ m.map Prod.fst ∧ l1 = [v]) ∨
                   ∃ l0, (k, l0) ∈ m ∧ l1 = l0 ++ [v])) := by
  intro m
  induction m with
  | nil =>
    intro _ k1 l1 h
    simp only [insertGrouped, List.mem_singleton, Prod.mk.injEq] at h
    exact Or.inr ⟨h.1, Or.inl ⟨by simp, h.2⟩⟩
  | cons kv rest ih =>
    obtain ⟨k0, vs⟩ := kv
    intro hnd k1 l1 h
    have hnd' : (k0 :: rest.map Prod.fst).Nodup := by simpa using hnd
    have hnd0 : k0 ∉ rest.map Prod.fst := (List.nodup_cons.mp hnd').1
    have hndr : (rest.map Prod.fst).Nodup := (List.nodup_cons.mp hnd').2
    by_cases hk : k0 = k
    · rw [show insertGrouped k v ((k0, vs) :: rest) = (k0, vs ++ [v]) :: rest by
        simp [insertGrouped, hk]] at h
      rcases List.mem_cons.mp h with heq | hrest
      · have hk1 : k1 = k0 := congrArg Prod.fst heq
        have hl1 : l1 = vs ++ [v] := congrArg Prod.snd heq
        refine Or.inr ⟨hk1.trans hk, Or.inr ⟨vs, ?_, hl1⟩⟩
        rw [← hk]
        exact List.mem_cons_self _ _
      · have hk1mem : k1 ∈ rest.map Prod.fst := List.mem_map_of_mem Prod.fst hrest
        have hne : k1 ≠ k := fun he => hnd0 ((he.trans hk.symm) ▸ hk1mem)
        exact Or.inl ⟨hne, List.mem_cons_of_mem _ hrest⟩
    · rw [show insertGrouped k v ((k0, vs) :: rest) = (k0, vs) :: insertGrouped k v rest by
        simp [insertGrouped, hk]] at h
      rcases List.mem_cons.mp h with heq | hrest
      · have hk1 : k1 = k0 := congrArg Prod.fst heq
        have hl1 : l1 = vs := congrArg Prod.snd heq
        refine Or.inl ⟨?_, ?_⟩
        · rw [hk1]; exact hk
        · rw [hk1, hl1]; exact List.mem_cons_self _ _
      · rcases ih hndr k1 l1 hrest with ⟨hne, hm⟩ | ⟨heq, hin⟩
        · exact Or.inl ⟨hne, List.mem_cons_of_mem _ hm⟩
        · refine Or.inr ⟨heq, ?_⟩
          rcases hin with ⟨hnot, hl⟩ | ⟨l0, hm0, hl⟩
          · refine Or.inl ⟨?_, hl⟩
            simp only [List.map_cons, List.mem_cons]
            rintro (hkk | hmem)
            · exact hk hkk.symm
            · exact hnot hmem
          · exact Or.inr ⟨l0, List.mem_cons_of_mem _ hm0, hl⟩

/-- Structural specification of `groupProposalsByDay`: distinct keys, every
proposal's day key present, and each group's content is exactly the input
subsequence of that day (with labels), in input order. -/
theorem groupProposalsByDay_spec (fmt : String → String) (ps : List Proposal) :
    ((groupProposalsByDay fmt ps).map Prod.fst).Nodup ∧
    (∀ p ∈ ps, dayKey p.start ∈ (groupProposalsByDay fmt ps).map Prod.fst) ∧
    (∀ k l, (k, l) ∈ groupProposalsByDay fmt ps →
      l = (ps.filter (fun p => dayKey p.start == k)).map (fun p => (p, fmt p.start))) := by
  induction ps using List.reverseRecOn with
  | nil => simp [groupProposalsByDay]
  | append_singleton ps p ih =>
    obtain ⟨hnd, hcov, hcontent⟩ := ih
    have hstep : groupProposalsByDay fmt (ps ++ [p]) =
        insertGrouped (dayKey p.start) (p, fmt p.start) (groupProposalsByDay fmt ps) := by
      simp [groupProposalsByDay, List.foldl_append]
    rw [hstep]
    refine ⟨?_, ?_, ?_⟩
    · rw [insertGrouped_keys]
      split_ifs with h
      · exact hnd
      · simp [List.nodup_append, hnd, h]
    · intro q hq
      rw [insertGrouped_keys]
      rcases List.mem_append.mp hq with hq | hq
      · split_ifs with h
        · exact hcov q hq
        · exact List.mem_append_left _ (hcov q hq)
      · rw [List.mem_singleton] at hq
        subst hq
        split_ifs with h
        · exact h
        · exact List.mem_append_right _ (List.mem_singleton_self _)
    · intro k l hmem
      rcases insertGrouped_mem _ _ _ hnd k l hmem with ⟨hne, hm⟩ | ⟨rfl, hin⟩
      · have hfp : (dayKey p.start == k) = false := by
          simp [Ne.symm hne]
        rw [hcontent k l hm]
        simp [List.filter_append, hfp]
      · rcases hin with ⟨hnot, rfl⟩ | ⟨l0, hm0, rfl⟩
        · have hnil : ps.filter (fun q => dayKey q.start == dayKey p.start) = [] := by
            rw [List.filter_eq_nil_iff]
            intro q hq hbeq
            have heq2 : dayKey q.start = dayKey p.start := by simpa using hbeq
            exact hnot (heq2 ▸ hcov q hq)
          simp [List.filter_append, hnil]
        · rw [hcontent _ _ hm0]
          simp [List.filter_append]

/-- With distinct keys, indexing retrieves exactly the stored group. -/
theorem lookupGroup_eq_of_mem {α : Type} :
    ∀ m : List (String × List α), (m.map Prod.fst).Nodup →
      ∀ k l, (k, l) ∈ m → lookupGroup m k = l := by
  intro m
  induction m with
  | nil => intro _ k l h; cases h
  | cons kv rest ih =>
    obtain ⟨k0, vs⟩ := kv
    intro hnd k l h
    have hnd' : (k0 :: rest.map Prod.fst).Nodup := by simpa using hnd
    have hnd0 : k0 ∉ rest.map Prod.fst := (List.nodup_cons.mp hnd').1
    have hndr : (rest.map Prod.fst).Nodup := (List.nodup_cons.mp hnd').2
    rcases List.mem_cons.mp h with heq | hrest
    · have hk : k = k0 := congrArg Prod.fst heq
      have hl : l = vs := congrArg Prod.snd heq
      simp [lookupGroup, hk.symm, hl]
    · have hkmem : k ∈ rest.map Prod.fst := List.mem_map_of_mem Prod.fst hrest
      have hne : k0 ≠ k := fun he => hnd0 (he ▸ hkmem)
      simp [lookupGroup, hne, ih hndr k l hrest]

/-- Indexing with an absent key yields `[]`. -/
theorem lookupGroup_eq_nil_of_not_mem {α : Type} :
    ∀ m : List (String × List α), ∀ k, k ∉ m.map Prod.fst → lookupGroup m k = [] := by
  intro m
  induction m with
  | nil => intro k _; rfl
  | cons kv rest ih =>
    obtain ⟨k0, vs⟩ := kv
    intro k hk
    have h1 : k0 ≠ k := by
      intro he; exact hk (by simp [he])
    have h2 : k ∉ rest.map Prod.fst := fun hm => hk (by simp [hm])
    simp [lookupGroup, h1, ih k h2]

theorem insertSorted_perm (k : String) : ∀ l : List String, (insertSorted k l).Perm (k :: l) := by
  intro l
  induction l with
  | nil => simp [insertSorted]
  | cons x xs ih =>
    by_cases h : listCharLeB k.data x.data
    · simp [insertSorted, h]
    · simp only [insertSorted, h, if_false, Bool.false_eq_true]
      exact ((ih.cons x).trans (List.Perm.swap k x xs))

/-- `sortKeys` permutes its input. -/
theorem sortKeys_perm : ∀ l : List String, (sortKeys l).Perm l := by
  intro l
  induction l with
  | nil => simp [sortKeys]
  | cons x xs ih => exact (insertSorted_perm x (sortKeys xs)).trans (ih.cons x)

theorem filter_concatMap {α β : Type} (f : α → List β) (q : β → Bool) :
    ∀ l : List α, (concatMap f l).filter q = concatMap (fun x => (f x).filter q) l := by
  intro l
  induction l with
  | nil => rfl
  | cons x xs ih => simp [concatMap, List.filter_append, ih]

theorem concatMap_congr {α β : Type} (f g : α → List β) :
    ∀ l : List α, (∀ x ∈ l, f x = g x) → concatMap f l = concatMap g l := by
  intro l
  induction l with
  | nil => intro _; rfl
  | cons x xs ih =>
    intro h
    simp only [concatMap, h x (List.mem_cons_self _ _),
      ih (fun y hy => h y (List.mem_cons_of_mem _ hy))]

/-- Concatenating `if k2 = k then c else []` over a duplicate-free key list
yields `c` when `k` occurs and `[]` otherwise. -/
theorem concatMap_if_single {β : Type} (c : List β) (k : String) :
    ∀ ks : List String, ks.Nodup →
      concatMap (fun k2 => if k2 = k then c else []) ks = if k ∈ ks then c else [] := by
  intro ks
  induction ks with
  | nil => intro _; rfl
  | cons x xs ih =>
    intro hnd
    have hnd0 : x ∉ xs := (List.nodup_cons.mp hnd).1
    have hndr : xs.Nodup := (List.nodup_cons.mp hnd).2
    by_cases hx : x = k
    · subst hx
      simp [concatMap, ih hndr, hnd0]
    · simp [concatMap, hx, ih hndr, List.mem_cons, Ne.symm hx]

/-- C6: `groupProposalsByDay` produces an order-preserving partition: the day
keys are pairwise distinct, every proposal's day key has a group, each group's
list is exactly the input subsequence whose start date is that key (in input
order, labels attached), and flattening the groups in ascending key order and
then selecting any day `k` recovers exactly the input's day-`k` subsequence in
its original relative order. -/
theorem groupProposalsByDay_partition (fmt : String → String) (ps : List Proposal) :
    ((groupProposalsByDay fmt ps).map Prod.fst).Nodup ∧
    (∀ p ∈ ps, dayKey p.start ∈ (groupProposalsByDay fmt ps).map Prod.fst) ∧
    (∀ k l, (k, l) ∈ groupProposalsByDay fmt ps →
      l = (ps.filter (fun p => dayKey p.start == k)).map (fun p => (p, fmt p.start))) ∧
    (∀ k : String,
      (concatMap (lookupGroup (groupProposalsByDay fmt ps))
          (sortKeys ((groupProposalsByDay fmt ps).map Prod.fst))).filter
        (fun v => dayKey v.1.start == k) =
      (ps.filter (fun p => dayKey p.start == k)).map (fun p => (p, fmt p.start))) := by
  obtain ⟨hnd, hcov, hcontent⟩ := groupProposalsByDay_spec fmt ps
  refine ⟨hnd, hcov, hcontent, ?_⟩
  intro k
  set g := groupProposalsByDay fmt ps with hg
  have hperm := sortKeys_perm (g.map Prod.fst)
  have hsnd : (sortKeys (g.map Prod.fst)).Nodup := hperm.nodup_iff.mpr hnd
  rw [filter_concatMap]
  have hpoint : ∀ k2 ∈ sortKeys (g.map Prod.fst),
      (lookupGroup g k2).filter (fun v => dayKey v.1.start == k) =
        (fun k2 => if k2 = k then lookupGroup g k else []) k2 := by
    intro k2 hk2
    have hk2keys : k2 ∈ g.map Prod.fst := hperm.mem_iff.mp hk2
    obtain ⟨⟨k2', l2⟩, hmem, hfst⟩ := List.mem_map.mp hk2keys
    have hk2' : k2' = k2 := hfst
    rw [hk2'] at hmem
    have hl2 : lookupGroup g k2 = l2 := lookupGroup_eq_of_mem g hnd k2 l2 hmem
    have hcontent2 := hcontent k2 l2 hmem
    by_cases hkk : k2 = k
    · subst hkk
      simp only [if_pos rfl]
      rw [hl2, hcontent2]
      apply List.filter_eq_self.mpr
      intro v hv
      obtain ⟨p, hp, rfl⟩ := List.mem_map.mp hv
      exact (List.mem_filter.mp hp).2
    · simp only [if_neg hkk]
      rw [hl2, hcontent2]
      apply List.filter_eq_nil_iff.mpr
      intro v hv
      obtain ⟨p, hp, rfl⟩ := List.mem_map.mp hv
      have hpk : dayKey p.start = k2 := by simpa using (List.mem_filter.mp hp).2
      simp [hpk, hkk]
  rw [concatMap_congr _ _ _ hpoint, concatMap_if_single _ _ _ hsnd]
  by_cases hmemk : k ∈ sortKeys (g.map Prod.fst)
  · rw [if_pos hmemk]
    have hkkeys : k ∈ g.map Prod.fst := hperm.mem_iff.mp hmemk
    obtain ⟨⟨k', l⟩, hmem, hfst⟩ := List.mem_map.mp hkkeys
    have hk' : k' = k := hfst
    rw [hk'] at hmem
    rw [lookupGroup_eq_of_mem g hnd k l hmem]
    exact hcontent k l hmem
  · rw [if_neg hmemk]
    have hnil : ps.filter (fun p => dayKey p.start == k) = [] := by
      apply List.filter_eq_nil_iff.mpr
      intro p hp hbeq
      have heq2 : dayKey p.start = k := by simpa using hbeq
      exact hmemk (hperm.mem_iff.mpr (heq2 ▸ hcov p hp))
    rw [hnil]
    rfl

/-- C6 witness: the partition properties instantiated on the concrete
three-proposal list (two days), discharging the membership hypotheses. -/
theorem groupProposalsByDay_partition_witness :
    ((groupProposalsByDay (fun s => s) [walkP, meditateP, stretchP]).map Prod.fst).Nodup ∧
    dayKey stretchP.start ∈
      (groupProposalsByDay (fun s => s) [walkP, meditateP, stretchP]).map Prod.fst ∧
    [(walkP, "2024-01-02T09:00"), (stretchP, "2024-01-02T18:00")] =
      (([walkP, meditateP, stretchP].filter (fun p => dayKey p.start == "2024-01-02")).map
        (fun p => (p, p.start))) ∧
    (concatMap (lookupGroup (groupProposalsByDay (fun s => s) [walkP, meditateP, stretchP]))
        (sortKeys ((groupProposalsByDay (fun s => s) [walkP, meditateP, stretchP]).map Prod.fst))).filter
      (fun v => dayKey v.1.start == "2024-01-02") =
      (([walkP, meditateP, stretchP].filter (fun p => dayKey p.start == "2024-01-02")).map
        (fun p => (p, p.start))) := by
  have h := groupProposalsByDay_partition (fun s => s) [walkP, meditateP, stretchP]
  refine ⟨h.1, h.2.1 stretchP (by decide), ?_, h.2.2.2 "2024-01-02"⟩
  have h3 := h.2.2.1 "2024-01-02" [(walkP, "2024-01-02T09:00"), (stretchP, "2024-01-02T18:00")]
    (by decide)
  exact h3

/-! ## C10 — one question per session after the initial assessment -/

/-- `startDayByDayApproval` never touches the check-in fields. -/
theorem startDayByDayApproval_checkin_frame (fL fT : String → String) (st : AppState)
    (ps : List Proposal) (sid : Option String) :
    (startDayByDayApproval fL fT st ps sid).isQuestionnaireOpen = st.isQuestionnaireOpen ∧
    (startDayByDayApproval fL fT st ps sid).questionsAvailable = st.questionsAvailable ∧
    (startDayByDayApproval fL fT st ps sid).cooldownUntil = st.cooldownUntil ∧
    (startDayByDayApproval fL fT st ps sid).needsInitialQuestions = st.needsInitialQuestions := by
  refine ⟨?_, ?_, ?_, ?_⟩ <;>
    (unfold startDayByDayApproval; dsimp only; split <;> rfl)

/-- A planning call issues no check-in fetches. -/
theorem planWithManager_no_checkin_calls (env : PlanEnv) (em : Option String)
    (un : String) (d : Nat) :
    ((planWithManager env em un d).2).countP isCheckinNextCall = 0 ∧
    ((planWithManager env em un d).2).countP isCheckinAnswerCall = 0 := by
  rcases em with _ | email
  · exact ⟨rfl, rfl⟩
  · unfold planWithManager
    rcases h : env.http with _ | _ | b | ⟨f, sid, msg, raw⟩
    all_goals
      first
      | exact ⟨rfl, rfl⟩
      | (constructor <;> (dsimp only; split <;> rfl))

/-- Core of C10: a successful `submitAnswer` with the initial assessment
already complete closes the modal, disables availability, applies the
cooldown, and fetches no further question (its only check-in call is the one
answer submission). -/
theorem submitAnswer_after_initial (env : CheckinEnv) (s : AppState) (value : Int)
    (q : NextQ) (bs : Option ℚ) (mins : ℤ)
    (hs : s.currentQ = some q)
    (hinit : s.needsInitialQuestions = false)
    (hans : env.answer = AnswerResp.ok bs mins)
    (hmins : 0 < mins) :
    (submitAnswer env s value).1.isQuestionnaireOpen = false ∧
    (submitAnswer env s value).1.questionsAvailable = false ∧
    (submitAnswer env s value).1.cooldownUntil = some (env.now + mins * 60000) ∧
    (submitAnswer env s value).1.needsInitialQuestions = false ∧
    (submitAnswer env s value).2.countP isCheckinNextCall = 0 ∧
    (submitAnswer env s value).2.countP isCheckinAnswerCall = 1 := by
  unfold submitAnswer
  rw [hs]
  dsimp only
  unfold answerQuestion
  rw [hans]
  dsimp only
  rw [if_pos hmins]
  rw [hinit]
  rw [if_neg (by simp)]
  rcases bs with _ | b <;> dsimp only <;>
  · rcases he : s.activeEmail with _ | email <;> dsimp only
    · exact ⟨rfl, rfl, rfl, rfl, rfl, rfl⟩
    · have hpc := planWithManager_no_checkin_calls env.plan (some email) env.userName 3
      rcases hp : planWithManager env.plan (some email) env.userName 3 with ⟨res, calls1⟩
      rw [hp] at hpc
      have hpc1 : calls1.countP isCheckinNextCall = 0 := hpc.1
      have hpc2 : calls1.countP isCheckinAnswerCall = 0 := hpc.2
      rcases res with _ | plan <;> dsimp only
      · refine ⟨rfl, rfl, rfl, rfl, ?_, ?_⟩
        · rw [List.countP_append, hpc1]
          rfl
        · rw [List.countP_append, hpc2]
          rfl
      · by_cases hok : (plan.ok = true) ∧ plan.proposals ≠ []
        · rw [if_pos hok]
          have hframe := fun s2 => startDayByDayApproval_checkin_frame env.fmtDayLabel env.fmtTime
            s2 plan.proposals plan.sessionId
          by_cases hda : plan.detailedAnalysis ≠ "" <;>
            [rw [if_pos hda]; rw [if_neg hda]] <;>
            (refine ⟨((hframe _).1.trans rfl), ((hframe _).2.1.trans rfl),
              ((hframe _).2.2.1.trans rfl), ((hframe _).2.2.2.trans rfl), ?_, ?_⟩ <;>
              rw [List.countP_append] <;> [(rw [hpc1]; rfl); (rw [hpc2]; rfl)])
        · rw [if_neg hok]
          by_cases hko : plan.ok = false <;> [rw [if_pos hko]; rw [if_neg hko]] <;>
            (refine ⟨rfl, rfl, rfl, rfl, ?_, ?_⟩ <;>
              rw [List.countP_append] <;> [(rw [hpc1]; rfl); (rw [hpc2]; rfl)])

/-- C10: once the initial assessment is complete, an opening of the check-in
questionnaire followed by one successful answer closes the modal, switches
question availability off, applies the cooldown `now + next_interval_min·60000`
(when the interval is positive), issues exactly one question fetch (at modal
open) and exactly one answer submission, and fetches no second question within
that session. -/
theorem questionnaire_single_question_after_initial (env : CheckinEnv) (st : AppState)
    (value : Int) (q : NextQ) (bs : Option ℚ) (mins : ℤ)
    (hinit : st.needsInitialQuestions = false)
    (hq : env.nextQ = some q)
    (hans : env.answer = AnswerResp.ok bs mins)
    (hmins : 0 < mins) :
    ((submitAnswer env (openQuestionnaire env st).1 value).1.isQuestionnaireOpen = false) ∧
    ((submitAnswer env (openQuestionnaire env st).1 value).1.questionsAvailable = false) ∧
    ((submitAnswer env (openQuestionnaire env st).1 value).1.cooldownUntil =
      some (env.now + mins * 60000)) ∧
    ((submitAnswer env (openQuestionnaire env st).1 value).1.needsInitialQuestions = false) ∧
    (((openQuestionnaire env st).2 ++
        (submitAnswer env (openQuestionnaire env st).1 value).2).countP isCheckinNextCall = 1) ∧
    ((submitAnswer env (openQuestionnaire env st).1 value).2.countP isCheckinAnswerCall = 1) := by
  have hopen : openQuestionnaire env st =
      ({ st with isQuestionnaireOpen := true, initialCount := 0, questionnaireInProgress := true,
                 currentQ := some q }, [Call.checkinNext]) := by
    simp [openQuestionnaire, hq]
  rw [hopen]
  have h := submitAnswer_after_initial env
    { st with isQuestionnaireOpen := true, initialCount := 0, questionnaireInProgress := true,
              currentQ := some q } value q bs mins rfl hinit hans hmins
  refine ⟨h.1, h.2.1, h.2.2.1, h.2.2.2.1, ?_, h.2.2.2.2.2⟩
  rw [List.countP_append]
  rw [h.2.2.2.2.1]
  rfl

/-- C10 witness: concrete environment (`next_interval_min = 45`) and a state
past the initial assessment. -/
theorem questionnaire_single_question_after_initial_witness :
    (submitAnswer witnessCheckinEnv
        (openQuestionnaire witnessCheckinEnv postInitialState).1 3).1.isQuestionnaireOpen = false ∧
    (submitAnswer witnessCheckinEnv
        (openQuestionnaire witnessCheckinEnv postInitialState).1 3).1.questionsAvailable = false ∧
    (submitAnswer witnessCheckinEnv
        (openQuestionnaire witnessCheckinEnv postInitialState).1 3).1.cooldownUntil =
      some ((0 : ℤ) + 45 * 60000) ∧
    (((openQuestionnaire witnessCheckinEnv postInitialState).2 ++
        (submitAnswer witnessCheckinEnv
          (openQuestionnaire witnessCheckinEnv postInitialState).1 3).2).countP
      isCheckinNextCall = 1) ∧
    ((submitAnswer witnessCheckinEnv
        (openQuestionnaire witnessCheckinEnv postInitialState).1 3).2.countP
      isCheckinAnswerCall = 1) := by
  have h := questionnaire_single_question_after_initial witnessCheckinEnv postInitialState 3
    { qid := "q1", text := "How rested do you feel?" } none 45 rfl rfl rfl (by decide)
  exact ⟨h.1, h.2.1, h.2.2.1, h.2.2.2.2.1, h.2.2.2.2.2⟩

/-! ## C3, C7 — the check-in interval curve -/

/-- Normal form of `calculateNextInterval`. -/
theorem calculateNextInterval_eq (s : ℝ) :
    calculateNextInterval s =
      round ((240 : ℝ) - 210 * (1 / (1 + Real.exp (-4 * (s / 100 - 0.5))))) := by
  unfold calculateNextInterval
  refine congrArg round ?_
  norm_num
  ring

/-- Rational bounds on `e²` from the Mathlib decimal bounds on `e`. -/
theorem exp_two_bounds : (7.389 : ℝ) < Real.exp 2 ∧ Real.exp 2 < 7.3891 := by
  have h2 : Real.exp 2 = Real.exp 1 * Real.exp 1 := by
    rw [← Real.exp_add]; norm_num
  have hlo := Real.exp_one_gt_d9
  have hhi := Real.exp_one_lt_d9
  constructor
  · rw [h2]; nlinarith
  · rw [h2]; nlinarith

/-- The interval is monotonically non-increasing in the score, over all of
`ℝ` (no clamping is applied). -/
theorem calculateNextInterval_antitone (s t : ℝ) (hst : s ≤ t) :
    calculateNextInterval t ≤ calculateNextInterval s := by
  rw [calculateNextInterval_eq, calculateNextInterval_eq]
  have ht : (0 : ℝ) < 1 + Real.exp (-4 * (t / 100 - 0.5)) := by positivity
  have hexp : Real.exp (-4 * (t / 100 - 0.5)) ≤ Real.exp (-4 * (s / 100 - 0.5)) :=
    Real.exp_le_exp.mpr (by linarith)
  have hratio : 1 / (1 + Real.exp (-4 * (s / 100 - 0.5))) ≤
      1 / (1 + Real.exp (-4 * (t / 100 - 0.5))) :=
    one_div_le_one_div_of_le ht (by linarith)
  rw [round_eq, round_eq]
  exact Int.floor_le_floor (by nlinarith)

/-- The interval always lies in `[30, 240]`. -/
theorem calculateNextInterval_bounds (s : ℝ) :
    30 ≤ calculateNextInterval s ∧ calculateNextInterval s ≤ 240 := by
  rw [calculateNextInterval_eq]
  have hpos : (0 : ℝ) < 1 + Real.exp (-4 * (s / 100 - 0.5)) := by positivity
  have hexp : 0 < Real.exp (-4 * (s / 100 - 0.5)) := Real.exp_pos _
  have hr1 : 1 / (1 + Real.exp (-4 * (s / 100 - 0.5))) < 1 := by
    rw [div_lt_one hpos]; linarith
  have hr0 : 0 < 1 / (1 + Real.exp (-4 * (s / 100 - 0.5))) := by positivity
  constructor
  · rw [round_eq]
    apply Int.le_floor.mpr
    push_cast
    nlinarith
  · rw [round_eq]
    apply Int.floor_le_iff.mpr
    push_cast
    nlinarith

/-- `calculateNextInterval 0 = 215` (the spec claims 240, which is only the
asymptotic limit of the logistic curve). -/
theorem calculateNextInterval_zero : calculateNextInterval 0 = 215 := by
  rw [calculateNextInterval_eq]
  rw [show (-4 : ℝ) * (0 / 100 - 0.5) = 2 by norm_num]
  obtain ⟨hlo, hhi⟩ := exp_two_bounds
  have hpos : (0 : ℝ) < 1 + Real.exp 2 := by positivity
  rw [round_eq]
  apply Int.floor_eq_iff.mpr
  constructor
  · have hub : 210 * (1 / (1 + Real.exp 2)) ≤ 25.5 := by
      rw [mul_one_div, div_le_iff hpos]; nlinarith
    push_cast
    nlinarith
  · have hlb : (25.03 : ℝ) < 210 * (1 / (1 + Real.exp 2)) := by
      rw [mul_one_div, lt_div_iff hpos]; nlinarith
    push_cast
    nlinarith

theorem calculateNextInterval_fifty : calculateNextInterval 50 = 135 := by
  rw [calculateNextInterval_eq]
  rw [show (-4 : ℝ) * (50 / 100 - 0.5) = 0 by norm_num, Real.exp_zero]
  rw [round_eq]
  apply Int.floor_eq_iff.mpr
  constructor
  · push_cast; norm_num
  · push_cast; norm_num

/-- `calculateNextInterval 100 = 55` (the spec claims 30, again only the
asymptotic limit). -/
theorem calculateNextInterval_hundred : calculateNextInterval 100 = 55 := by
  rw [calculateNextInterval_eq]
  rw [show (-4 : ℝ) * (100 / 100 - 0.5) = -2 by norm_num, Real.exp_neg]
  obtain ⟨hlo, hhi⟩ := exp_two_bounds
  have hpos : (0 : ℝ) < 1 + Real.exp 2 := by positivity
  have hx : Real.exp 2 ≠ 0 := by positivity
  have h1 : (1 : ℝ) + Real.exp 2 ≠ 0 := by positivity
  have hkey : 210 * (1 / (1 + (Real.exp 2)⁻¹)) = 210 - 210 * (1 / (1 + Real.exp 2)) := by
    field_simp
    ring
  have hub : 210 * (1 / (1 + Real.exp 2)) < 25.5 := by
    rw [mul_one_div, div_lt_iff hpos]; nlinarith
  have hlb : (24.5 : ℝ) < 210 * (1 / (1 + Real.exp 2)) := by
    rw [mul_one_div, lt_div_iff hpos]; nlinarith
  rw [round_eq, hkey]
  apply Int.floor_eq_iff.mpr
  constructor
  · push_cast; linarith
  · push_cast; linarith

/-- For scores below 0 the computed interval is at least 239 minutes
(approaching, but never reaching, 240). -/
theorem calculateNextInterval_neg100_ge : 239 ≤ calculateNextInterval (-100) := by
  rw [calculateNextInterval_eq]
  rw [show (-4 : ℝ) * (-100 / 100 - 0.5) = 6 by norm_num]
  rw [show (6 : ℝ) = 2 + 2 + 2 by norm_num, Real.exp_add, Real.exp_add]
  obtain ⟨hlo, hhi⟩ := exp_two_bounds
  have hpos : (0 : ℝ) < 1 + Real.exp 2 * Real.exp 2 * Real.exp 2 := by positivity
  have hub : 210 * (1 / (1 + Real.exp 2 * Real.exp 2 * Real.exp 2)) < 0.52 := by
    rw [mul_one_div, div_lt_iff hpos]
    nlinarith
  rw [round_eq]
  apply Int.le_floor.mpr
  push_cast
  linarith

/-- C3 (counterexample): `calculateNextInterval 0` is `215`, not `240` — the
claimed endpoint values are only the asymptotic limits of the logistic
curve. -/
theorem calculateNextInterval_zero_ne_240 : calculateNextInterval 0 ≠ 240 := by
  rw [calculateNextInterval_zero]
  decide

/-- C3 (amended): the interval function (ratio/minutes formula as embedded in
`calculateNextInterval`) is monotonically non-increasing in the score, with
`nextInterval 50 = 135` as claimed, but `nextInterval 0 = 215` and
`nextInterval 100 = 55` (not the claimed 240 and 30, which the curve only
approaches asymptotically). -/
theorem calculateNextInterval_profile :
    (∀ s t : ℝ, s ≤ t → calculateNextInterval t ≤ calculateNextInterval s) ∧
    calculateNextInterval 0 = 215 ∧
    calculateNextInterval 50 = 135 ∧
    calculateNextInterval 100 = 55 :=
  ⟨calculateNextInterval_antitone, calculateNextInterval_zero, calculateNextInterval_fifty,
    calculateNextInterval_hundred⟩

/-- C3 witness: monotonicity instantiated at `0 ≤ 50` and `50 ≤ 100`. -/
theorem calculateNextInterval_profile_witness :
    calculateNextInterval 50 ≤ calculateNextInterval 0 ∧
    calculateNextInterval 100 ≤ calculateNextInterval 50 :=
  ⟨calculateNextInterval_profile.1 0 50 (by norm_num),
   calculateNextInterval_profile.1 50 100 (by norm_num)⟩

/-- C7 (counterexample): no clamp is applied — at score `-100` the computed
interval (≥ 239) differs from the interval at `0` (= 215), so out-of-range
scores are **not** mapped to the clamped endpoints. -/
theorem calculateNextInterval_not_clamped :
    calculateNextInterval (-100) ≠ calculateNextInterval 0 := by
  have h := calculateNextInterval_neg100_ge
  rw [calculateNextInterval_zero]
  omega

/-- C7 (amended): `calculateNextInterval` applies no clamp; the raw score is
fed to the logistic formula, which extends monotonically to all of `ℝ`, so a
negative score yields an interval at least the interval at `0` (and at most
240), and a score above 100 yields an interval at most the interval at `100`
(and at least 30). -/
theorem calculateNextInterval_out_of_range (s : ℝ) :
    (s < 0 → calculateNextInterval 0 ≤ calculateNextInterval s ∧
      calculateNextInterval s ≤ 240) ∧
    (100 < s → calculateNextInterval s ≤ calculateNextInterval 100 ∧
      30 ≤ calculateNextInterval s) := by
  constructor
  · intro h
    exact ⟨calculateNextInterval_antitone s 0 h.le, (calculateNextInterval_bounds s).2⟩
  · intro h
    exact ⟨calculateNextInterval_antitone 100 s h.le, (calculateNextInterval_bounds s).1⟩

/-- C7 witness: the amended statement at scores `-100` and `200`. -/
theorem calculateNextInterval_out_of_range_witness :
    (calculateNextInterval 0 ≤ calculateNextInterval (-100) ∧
      calculateNextInterval (-100) ≤ 240) ∧
    (calculateNextInterval 200 ≤ calculateNextInterval 100 ∧
      30 ≤ calculateNextInterval 200) :=
  ⟨(calculateNextInterval_out_of_range (-100)).1 (by norm_num),
   (calculateNextInterval_out_of_range 200).2 (by norm_num)⟩

end Unfrazzle
